import Mathlib

/-!
# Verification of the Maven-vs-Market dashboard core (`src/app.py`)

Shallow embedding of the dashboard's data preparation, filtering and KPI
derivation logic.  Calendar dates are modelled as `Int` day ordinals
(the code only ever compares them, takes min/max, and renders them);
decimal prices are modelled as `ℚ` (the Python floats, idealised to exact
arithmetic).  pandas DataFrames become lists of records;
`sort_values("Date")` becomes `List.insertionSort` by date.
-/

namespace MavenMarket

/-- A row of `df_maven` (`maven_orders.csv`): Date, Product, BagPrice, Bags. -/
structure Order where
  date : Int
  product : String
  bagPrice : ℚ
  bags : Int
deriving DecidableEq, Repr

/-- A row of `df_market` (`coffee_market.csv`): Date, MarketPrices. -/
structure MarketRec where
  date : Int
  price : ℚ
deriving DecidableEq, Repr

/-- A row of the derived `df_market_candle` table: Date, Open, High, Low, Close. -/
structure Candle where
  date : Int
  «open» : ℚ
  high : ℚ
  low : ℚ
  close : ℚ
deriving DecidableEq, Repr

/-- Date-ascending order on order rows (the key of `df_maven.sort_values("Date")`). -/
def byDateO (a b : Order) : Prop := a.date ≤ b.date

/-- Date-ascending order on market rows. -/
def byDateM (a b : MarketRec) : Prop := a.date ≤ b.date

/-- Date-ascending order on candle rows. -/
def byDateC (a b : Candle) : Prop := a.date ≤ b.date

instance : DecidableRel byDateO := fun a b => inferInstanceAs (Decidable (a.date ≤ b.date))
instance : DecidableRel byDateM := fun a b => inferInstanceAs (Decidable (a.date ≤ b.date))
instance : DecidableRel byDateC := fun a b => inferInstanceAs (Decidable (a.date ≤ b.date))

instance : IsTotal Order byDateO := ⟨fun a b => Int.le_total a.date b.date⟩
instance : IsTrans Order byDateO := ⟨fun _ _ _ h h' => le_trans h h'⟩
instance : IsTotal MarketRec byDateM := ⟨fun a b => Int.le_total a.date b.date⟩
instance : IsTrans MarketRec byDateM := ⟨fun _ _ _ h h' => le_trans h h'⟩
instance : IsTotal Candle byDateC := ⟨fun a b => Int.le_total a.date b.date⟩
instance : IsTrans Candle byDateC := ⟨fun _ _ _ h h' => le_trans h h'⟩

/-- The candle row built from a market record and its predecessor: Open is
the previous row's MarketPrices (`.shift(1)`), Close the current one, and
High/Low the rowwise max/min of Open and Close. -/
def mkCandle (prev cur : MarketRec) : Candle :=
  { date := cur.date, high := max prev.price cur.price,
    low := min prev.price cur.price, close := cur.price, «open» := prev.price }

/-- `df_market_candle`: one candle per consecutive pair of market rows; the
first row (whose shifted Open is NaN) is dropped (`dropna(subset=["Open"])`). -/
def market_candle : List MarketRec → List Candle
  | [] => []
  | [_] => []
  | r0 :: r1 :: rest => mkCandle r0 r1 :: market_candle (r1 :: rest)

/-- The process-wide tables built once at startup. -/
structure Tables where
  df_maven : List Order
  df_market : List MarketRec
  df_market_candle : List Candle
deriving DecidableEq

/-- Startup data preparation: sort both sources ascending by Date and derive
the candle table from the sorted market series. -/
def prepTables (maven : List Order) (market : List MarketRec) : Tables :=
  let m := maven.insertionSort byDateO
  let k := market.insertionSort byDateM
  ⟨m, k, market_candle k⟩

/-- `default_start = df_maven["Date"].min()`: minimum of the order dates
(junk value 0 on the empty table, which is a fatal startup condition). -/
def dates_min : List Order → Int
  | [] => 0
  | o :: rest => rest.foldl (fun m r => min m r.date) o.date

/-- `default_end = df_maven["Date"].max()`: maximum of the order dates. -/
def dates_max : List Order → Int
  | [] => 0
  | o :: rest => rest.foldl (fun m r => max m r.date) o.date

/-- `str(default_start)`: the calendar-date string of a date ordinal,
modelled as its canonical decimal rendering. -/
def dateStr (d : Int) : String := toString d

/-- Output signal of the reset callback: either `dash.no_update` for both
date inputs, or a pair of date strings. -/
inductive ResetOutput
  | noUpdate
  | setRange (startStr endStr : String)
deriving DecidableEq, Repr

/-- `reset_date_range(n_clicks)`: when `n_clicks` is truthy return
`(str(default_start), str(default_end))`, else `(dash.no_update, dash.no_update)`. -/
def reset_date_range (orders : List Order) (n_clicks : Nat) : ResetOutput :=
  if n_clicks ≠ 0 then
    .setRange (dateStr (dates_min orders)) (dateStr (dates_max orders))
  else
    .noUpdate

/-- `pct_growth(start, end)`: `None` if either argument is `None` or
`start == 0`, else `((end - start) / start) * 100.0`. -/
def pct_growth (s e : Option ℚ) : Option ℚ :=
  match s, e with
  | none, _ => none
  | _, none => none
  | some a, some b => if a = 0 then none else some ((b - a) / a * 100)

/-- Decimal digit character. -/
def digitChar (d : Nat) : Char := Char.ofNat (48 + d)

/-- Two-character decimal rendering of `m % 100` (tens digit, ones digit). -/
def twoDigits (m : Nat) : String := String.mk [digitChar (m / 10 % 10), digitChar (m % 10)]

/-- Round a rational to the nearest integer, ties to even — the rounding
used by Python's fixed-point float formatting. -/
def roundHalfEven (q : ℚ) : Int :=
  let f : Int := ⌊q⌋
  if q - f < 1/2 then f
  else if (1 : ℚ)/2 < q - f then f + 1
  else if f % 2 = 0 then f else f + 1

/-- `f"{p:.2f}"`: fixed-point rendering with exactly two decimal places. -/
def fmt2 (q : ℚ) : String :=
  let n : Int := roundHalfEven (q * 100)
  let sgn : String := if q < 0 then "-" else ""
  sgn ++ Nat.repr (n.natAbs / 100) ++ "." ++ twoDigits (n.natAbs % 100)

/-- `format_pct(p)`: `f"{p:.2f}%"` when present, `"N/A"` when absent. -/
def format_pct : Option ℚ → String
  | some p => fmt2 p ++ "%"
  | none => "N/A"

/-- The populated branch of the dashboard callback's output. -/
structure Populated where
  filteredOrders : List Order
  filteredCandles : List Candle
  filteredMarket : List MarketRec
  marketGrowth : Option ℚ
  priceChange : Option ℚ
  latestDiff : Option ℚ
  kpiCards : List (String × String)
deriving DecidableEq

/-- Result of `update_dashboard`: either the "no data" notice (blank figure,
single message, no traces and no KPI cards) or the populated dashboard. -/
inductive DashboardResult
  | empty (message : String)
  | populated (val : Populated)
deriving DecidableEq

/-- `dff_maven`: rows of `df_maven` with the selected product and
`start_date <= Date <= end_date` (both inclusive). -/
def filtered_orders (t : Tables) (selected_product : String) (start_date end_date : Int) :
    List Order :=
  t.df_maven.filter fun o =>
    o.product == selected_product && decide (start_date ≤ o.date) && decide (o.date ≤ end_date)

/-- `dff_market_candle`: candle rows with `start_date <= Date <= end_date`. -/
def filtered_candles (t : Tables) (start_date end_date : Int) : List Candle :=
  t.df_market_candle.filter fun c =>
    decide (start_date ≤ c.date) && decide (c.date ≤ end_date)

/-- The market slice before the conditional sort:
`df_market[(Date >= start) & (Date <= end)].copy()`. -/
def dff_market0 (t : Tables) (start_date end_date : Int) : List MarketRec :=
  t.df_market.filter fun r =>
    decide (start_date ≤ r.date) && decide (r.date ≤ end_date)

/-- `dff_market` after the callback body: sorted by Date when non-empty
(`sort_values("Date", inplace=True)` on the local copy). -/
def dff_market (t : Tables) (start_date end_date : Int) : List MarketRec :=
  if (dff_market0 t start_date end_date).isEmpty then dff_market0 t start_date end_date
  else (dff_market0 t start_date end_date).insertionSort byDateM

/-- `earliest_market`: `dff_market["MarketPrices"].iloc[0]` when the slice is
non-empty, else `None`. -/
def earliest_market (t : Tables) (start_date end_date : Int) : Option ℚ :=
  if (dff_market0 t start_date end_date).isEmpty then none
  else (dff_market t start_date end_date).head?.map (·.price)

/-- `latest_market`: `dff_market["MarketPrices"].iloc[-1]` when the slice is
non-empty, else `None`. -/
def latest_market (t : Tables) (start_date end_date : Int) : Option ℚ :=
  if (dff_market0 t start_date end_date).isEmpty then none
  else (dff_market t start_date end_date).getLast?.map (·.price)

/-- The populated branch of `update_dashboard`: filtered rows, the three KPI
values and the three KPI cards (title, body text) in their fixed order. -/
def compute_populated (t : Tables) (selected_product : String) (start_date end_date : Int) :
    Populated :=
  let dff_maven := filtered_orders t selected_product start_date end_date
  let earliest_maven := dff_maven.head?.map (·.bagPrice)
  let latest_maven := dff_maven.getLast?.map (·.bagPrice)
  let market_growth := pct_growth (earliest_market t start_date end_date)
    (latest_market t start_date end_date)
  let price_change := pct_growth earliest_maven latest_maven
  let differential := if (latest_market t start_date end_date).isSome then
    pct_growth (latest_market t start_date end_date) latest_maven else none
  { filteredOrders := dff_maven,
    filteredCandles := filtered_candles t start_date end_date,
    filteredMarket := dff_market t start_date end_date,
    marketGrowth := market_growth,
    priceChange := price_change,
    latestDiff := differential,
    kpiCards := [("Market Growth", format_pct market_growth),
                 ("Price Change", format_pct price_change),
                 ("Latest Diff", format_pct differential ++ " vs. Market")] }

/-- `update_dashboard(selected_product, start_date, end_date)`: the "no data"
notice when `dff_maven` is empty, otherwise the populated dashboard. -/
def update_dashboard (t : Tables) (selected_product : String) (start_date end_date : Int) :
    DashboardResult :=
  if (filtered_orders t selected_product start_date end_date).isEmpty then
    .empty "No data for this product in the selected date range."
  else
    .populated (compute_populated t selected_product start_date end_date)

/-- The callback viewed with the process-wide tables threaded as state: every
pandas operation in the body acts on a fresh slice or an explicit `.copy()`
(the only in-place `sort_values` is on the local copy `dff_market`), so the
global tables come back unchanged. -/
def update_dashboard_app (t : Tables) (selected_product : String) (start_date end_date : Int) :
    DashboardResult × Tables :=
  (update_dashboard t selected_product start_date end_date, t)

/-- Order rows of the worked scenario in the spec (dates as day ordinals:
2023-01-01 ↦ 0, 2023-02-01 ↦ 31). -/
def sampleOrders : List Order := [⟨0, "Arabica", 10, 5⟩, ⟨31, "Arabica", 12, 6⟩]

/-- Market rows of the worked scenario in the spec. -/
def sampleMarket : List MarketRec := [⟨0, 4⟩, ⟨31, 5⟩]

/-- Startup tables for the worked scenario. -/
def sampleTables : Tables := prepTables sampleOrders sampleMarket

/-- Tables whose first market price is zero (exercises the `start == 0`
branch of `pct_growth`). -/
def zeroTables : Tables := prepTables [⟨0, "A", 10, 5⟩] [⟨0, 0⟩, ⟨1, 5⟩]

/-! ## Helper lemmas -/

theorem insertionSort_eq_nil_iff {α : Type _} (r : α → α → Prop) [DecidableRel r]
    (l : List α) : l.insertionSort r = [] ↔ l = [] := by
  constructor
  · intro h
    have hl := List.length_insertionSort r l
    rw [h] at hl
    exact List.length_eq_zero.mp hl.symm
  · intro h
    subst h
    rfl

theorem update_dashboard_populated {t : Tables} {sel : String} {sd ed : Int} {p : Populated}
    (h : update_dashboard t sel sd ed = .populated p) :
    p = compute_populated t sel sd ed ∧ filtered_orders t sel sd ed ≠ [] := by
  unfold update_dashboard at h
  split at h
  · simp at h
  · next hne =>
    injection h with h
    exact ⟨h.symm, by simpa [List.isEmpty_iff] using hne⟩

theorem compute_populated_filteredOrders (t : Tables) (sel : String) (sd ed : Int) :
    (compute_populated t sel sd ed).filteredOrders = filtered_orders t sel sd ed := rfl

theorem compute_populated_filteredCandles (t : Tables) (sel : String) (sd ed : Int) :
    (compute_populated t sel sd ed).filteredCandles = filtered_candles t sd ed := rfl

theorem compute_populated_filteredMarket (t : Tables) (sel : String) (sd ed : Int) :
    (compute_populated t sel sd ed).filteredMarket = dff_market t sd ed := rfl

theorem compute_populated_marketGrowth (t : Tables) (sel : String) (sd ed : Int) :
    (compute_populated t sel sd ed).marketGrowth =
      pct_growth (earliest_market t sd ed) (latest_market t sd ed) := rfl

theorem compute_populated_priceChange (t : Tables) (sel : String) (sd ed : Int) :
    (compute_populated t sel sd ed).priceChange =
      pct_growth ((filtered_orders t sel sd ed).head?.map (·.bagPrice))
        ((filtered_orders t sel sd ed).getLast?.map (·.bagPrice)) := rfl

theorem compute_populated_latestDiff (t : Tables) (sel : String) (sd ed : Int) :
    (compute_populated t sel sd ed).latestDiff =
      if (latest_market t sd ed).isSome then
        pct_growth (latest_market t sd ed)
          ((filtered_orders t sel sd ed).getLast?.map (·.bagPrice))
      else none := rfl

theorem length_market_candle : ∀ (l : List MarketRec), l ≠ [] →
    l.length = (market_candle l).length + 1
  | [], h => absurd rfl h
  | [_], _ => rfl
  | r0 :: r1 :: rest, _ => by
    have ih := length_market_candle (r1 :: rest) (by simp)
    simp only [market_candle, List.length_cons] at *
    omega

theorem market_candle_map_date : ∀ (l : List MarketRec),
    (market_candle l).map (·.date) = l.tail.map (·.date)
  | [] => rfl
  | [_] => rfl
  | r0 :: r1 :: rest => by
    simp only [market_candle, List.map_cons, List.tail_cons]
    rw [market_candle_map_date (r1 :: rest)]
    rfl

theorem market_candle_get? : ∀ (l : List MarketRec) (i : Nat) (prev cur : MarketRec),
    l[i]? = some prev → l[i + 1]? = some cur →
    (market_candle l)[i]? = some (mkCandle prev cur)
  | [], i, prev, cur, h1, _ => by simp at h1
  | [_], i, prev, cur, _, h2 => by
    rcases i with _ | j <;> simp at h2
  | r0 :: r1 :: rest, 0, prev, cur, h1, h2 => by
    simp only [List.getElem?_cons_zero, List.getElem?_cons_succ, Option.some_inj] at h1 h2
    subst h1
    subst h2
    simp [market_candle]
  | r0 :: r1 :: rest, i + 1, prev, cur, h1, h2 => by
    have ih := market_candle_get? (r1 :: rest) i prev cur
      (by simpa using h1) (by simpa using h2)
    simpa [market_candle] using ih

theorem market_candle_mem : ∀ {l : List MarketRec} {c : Candle}, c ∈ market_candle l →
    ∃ (i : Nat) (prev cur : MarketRec), l[i]? = some prev ∧ l[i + 1]? = some cur ∧
      c = mkCandle prev cur
  | [], _, hc => absurd hc (by simp [market_candle])
  | [_], _, hc => absurd hc (by simp [market_candle])
  | r0 :: r1 :: rest, c, hc => by
    rcases List.mem_cons.mp hc with rfl | hc
    · exact ⟨0, r0, r1, by simp, by simp, rfl⟩
    · obtain ⟨i, prev, cur, h1, h2, h3⟩ := market_candle_mem hc
      exact ⟨i + 1, prev, cur, by simpa using h1, by simpa using h2, h3⟩

theorem market_candle_sorted {l : List MarketRec} (hs : List.Sorted byDateM l) :
    List.Sorted byDateC (market_candle l) := by
  induction l with
  | nil => exact List.sorted_nil
  | cons r0 tl ih =>
    cases tl with
    | nil => exact List.sorted_nil
    | cons r1 rest =>
      have hs' : List.Sorted byDateM (r1 :: rest) := (List.pairwise_cons.mp hs).2
      refine List.pairwise_cons.mpr ⟨?_, ih hs'⟩
      intro c hc
      obtain ⟨i, prev, cur, h1, h2, rfl⟩ := market_candle_mem hc
      have hcur : cur ∈ r1 :: rest := List.getElem?_mem h2
      show r1.date ≤ cur.date
      rcases List.mem_cons.mp hcur with rfl | hcm
      · exact le_refl _
      · exact (List.pairwise_cons.mp hs').1 cur hcm

theorem market_candle_bounds {l : List MarketRec} {c : Candle} (hc : c ∈ market_candle l) :
    c.low ≤ c.«open» ∧ c.«open» ≤ c.high ∧ c.low ≤ c.close ∧ c.close ≤ c.high := by
  obtain ⟨i, prev, cur, -, -, rfl⟩ := market_candle_mem hc
  exact ⟨min_le_left _ _, le_max_left _ _, min_le_right _ _, le_max_right _ _⟩

theorem foldl_min_spec : ∀ (l : List Order) (a : Int),
    (l.foldl (fun m r => min m r.date) a ≤ a ∧
      ∀ o ∈ l, l.foldl (fun m r => min m r.date) a ≤ o.date) ∧
    (l.foldl (fun m r => min m r.date) a = a ∨
      ∃ o ∈ l, l.foldl (fun m r => min m r.date) a = o.date)
  | [], a => by simp
  | o :: rest, a => by
    have ih := foldl_min_spec rest (min a o.date)
    simp only [List.foldl_cons]
    refine ⟨⟨le_trans ih.1.1 (min_le_left _ _), ?_⟩, ?_⟩
    · intro x hx
      rcases List.mem_cons.mp hx with rfl | hx
      · exact le_trans ih.1.1 (min_le_right _ _)
      · exact ih.1.2 x hx
    · rcases ih.2 with h | ⟨x, hx, h⟩
      · rcases le_total a o.date with hle | hle
        · exact Or.inl (by rw [h]; exact min_eq_left hle)
        · exact Or.inr ⟨o, List.mem_cons_self _ _, by rw [h]; exact min_eq_right hle⟩
      · exact Or.inr ⟨x, List.mem_cons_of_mem _ hx, h⟩

theorem foldl_max_spec : ∀ (l : List Order) (a : Int),
    (a ≤ l.foldl (fun m r => max m r.date) a ∧
      ∀ o ∈ l, o.date ≤ l.foldl (fun m r => max m r.date) a) ∧
    (l.foldl (fun m r => max m r.date) a = a ∨
      ∃ o ∈ l, l.foldl (fun m r => max m r.date) a = o.date)
  | [], a => by simp
  | o :: rest, a => by
    have ih := foldl_max_spec rest (max a o.date)
    simp only [List.foldl_cons]
    refine ⟨⟨le_trans (le_max_left _ _) ih.1.1, ?_⟩, ?_⟩
    · intro x hx
      rcases List.mem_cons.mp hx with rfl | hx
      · exact le_trans (le_max_right _ _) ih.1.1
      · exact ih.1.2 x hx
    · rcases ih.2 with h | ⟨x, hx, h⟩
      · rcases le_total a o.date with hle | hle
        · exact Or.inr ⟨o, List.mem_cons_self _ _, by rw [h]; exact max_eq_right hle⟩
        · exact Or.inl (by rw [h]; exact max_eq_left hle)
      · exact Or.inr ⟨x, List.mem_cons_of_mem _ hx, h⟩

theorem dates_min_spec {l : List Order} (h : l ≠ []) :
    (∃ o ∈ l, dates_min l = o.date) ∧ ∀ o ∈ l, dates_min l ≤ o.date := by
  match l, h with
  | o :: rest, _ =>
    have hs := foldl_min_spec rest o.date
    refine ⟨?_, ?_⟩
    · rcases hs.2 with h1 | ⟨x, hx, h1⟩
      · exact ⟨o, List.mem_cons_self _ _, h1⟩
      · exact ⟨x, List.mem_cons_of_mem _ hx, h1⟩
    · intro x hx
      rcases List.mem_cons.mp hx with rfl | hx
      · exact hs.1.1
      · exact hs.1.2 x hx

theorem dates_max_spec {l : List Order} (h : l ≠ []) :
    (∃ o ∈ l, dates_max l = o.date) ∧ ∀ o ∈ l, o.date ≤ dates_max l := by
  match l, h with
  | o :: rest, _ =>
    have hs := foldl_max_spec rest o.date
    refine ⟨?_, ?_⟩
    · rcases hs.2 with h1 | ⟨x, hx, h1⟩
      · exact ⟨o, List.mem_cons_self _ _, h1⟩
      · exact ⟨x, List.mem_cons_of_mem _ hx, h1⟩
    · intro x hx
      rcases List.mem_cons.mp hx with rfl | hx
      · exact hs.1.1
      · exact hs.1.2 x hx

/-! ## Claim theorems -/

/-- C1 (counterexample): `pct_growth` is also absent when its second argument
is absent even though the first is present and non-zero, so "absent iff `a`
is absent or `a == 0`" fails at `a = 1`, `b = None`. -/
theorem C1_counterexample : pct_growth (some 1) none = none ∧
    ¬(some (1 : ℚ) = none ∨ (1 : ℚ) = 0) := by
  refine ⟨rfl, ?_⟩
  simp

/-- C1 (amended): `pct_growth a b` is absent iff `a` is absent, `b` is
absent, or `a == 0`; when both are present and `a ≠ 0` it equals
`(b - a) / a * 100` exactly. -/
theorem C1_pct_growth (a b : Option ℚ) :
    (pct_growth a b = none ↔ a = none ∨ b = none ∨ a = some 0) ∧
    ∀ x y : ℚ, a = some x → b = some y → x ≠ 0 →
      pct_growth a b = some ((y - x) / x * 100) := by
  constructor
  · cases a with
    | none => simp [pct_growth]
    | some x =>
      cases b with
      | none => simp [pct_growth]
      | some y => by_cases hx : x = 0 <;> simp [pct_growth, hx]
  · rintro x y rfl rfl hx
    simp [pct_growth, hx]

/-- C1 witness: at `a = 4`, `b = 5` the helper returns `(5-4)/4*100`. -/
theorem C1_witness : pct_growth (some 4) (some 5) = some ((5 - 4) / 4 * 100) :=
  (C1_pct_growth (some 4) (some 5)).2 4 5 rfl rfl (by norm_num)

/-- C2: the dashboard update returns the Empty result with exactly the
message "No data for this product in the selected date range." iff no order
row has the selected product and a date inside the inclusive range; in
particular any reversed range yields that Empty result. -/
theorem C2_empty_result (t : Tables) (sel : String) (sd ed : Int) :
    (update_dashboard t sel sd ed =
        .empty "No data for this product in the selected date range." ↔
      ∀ o ∈ t.df_maven, ¬(o.product = sel ∧ sd ≤ o.date ∧ o.date ≤ ed)) ∧
    (ed < sd → update_dashboard t sel sd ed =
        .empty "No data for this product in the selected date range.") := by
  have key : update_dashboard t sel sd ed =
      .empty "No data for this product in the selected date range." ↔
      filtered_orders t sel sd ed = [] := by
    unfold update_dashboard
    split
    · next h => simp_all [List.isEmpty_iff]
    · next h => simp_all [List.isEmpty_iff]
  have key2 : filtered_orders t sel sd ed = [] ↔
      ∀ o ∈ t.df_maven, ¬(o.product = sel ∧ sd ≤ o.date ∧ o.date ≤ ed) := by
    unfold filtered_orders
    rw [List.filter_eq_nil_iff]
    constructor
    · intro h o ho
      have := h o ho
      simp only [Bool.and_eq_true, beq_iff_eq, decide_eq_true_eq] at this
      tauto
    · intro h o ho
      have := h o ho
      simp only [Bool.and_eq_true, beq_iff_eq, decide_eq_true_eq]
      tauto
  refine ⟨key.trans key2, fun hlt => (key.trans key2).mpr ?_⟩
  intro o _ hcon
  omega

/-- C2 witness: the reversed range 31..0 on the sample data yields the
Empty result with the fixed message. -/
theorem C2_witness : update_dashboard sampleTables "Arabica" 31 0 =
    .empty "No data for this product in the selected date range." :=
  (C2_empty_result sampleTables "Arabica" 31 0).2 (by norm_num)

/-- C3: for a non-empty date-sorted market series, the candle table has one
row fewer, stays sorted ascending by date, candle `i` has Close equal to
record `i+1`'s price (that candle's own date), Open equal to the immediately
preceding record's price, High/Low the max/min of those, and every candle
satisfies `Low ≤ Open ≤ High` and `Low ≤ Close ≤ High`. -/
theorem C3_candles (l : List MarketRec) (hne : l ≠ []) (hs : List.Sorted byDateM l) :
    l.length = (market_candle l).length + 1 ∧
    List.Sorted byDateC (market_candle l) ∧
    (∀ (i : Nat) (prev cur : MarketRec), l[i]? = some prev → l[i + 1]? = some cur →
      (market_candle l)[i]? = some (mkCandle prev cur)) ∧
    ∀ c ∈ market_candle l, c.low ≤ c.«open» ∧ c.«open» ≤ c.high ∧
      c.low ≤ c.close ∧ c.close ≤ c.high :=
  ⟨length_market_candle l hne, market_candle_sorted hs,
    fun i prev cur h1 h2 => market_candle_get? l i prev cur h1 h2,
    fun _ hc => market_candle_bounds hc⟩

/-- C3 witness: the two-row sample market series. -/
theorem C3_witness :
    sampleMarket.length = (market_candle sampleMarket).length + 1 ∧
    List.Sorted byDateC (market_candle sampleMarket) ∧
    (∀ (i : Nat) (prev cur : MarketRec),
      sampleMarket[i]? = some prev → sampleMarket[i + 1]? = some cur →
      (market_candle sampleMarket)[i]? = some (mkCandle prev cur)) ∧
    ∀ c ∈ market_candle sampleMarket, c.low ≤ c.«open» ∧ c.«open» ≤ c.high ∧
      c.low ≤ c.close ∧ c.close ≤ c.high :=
  C3_candles sampleMarket (by simp [sampleMarket]) (by decide)

/-- C4: whenever the update returns a Populated result (built from a
date-sorted `df_maven`), its filtered orders are sorted ascending by date
and every element has the selected product and a date inside the inclusive
range. -/
theorem C4_filtered_orders_sorted (t : Tables) (hs : List.Sorted byDateO t.df_maven)
    (sel : String) (sd ed : Int) (p : Populated)
    (h : update_dashboard t sel sd ed = .populated p) :
    List.Sorted byDateO p.filteredOrders ∧
      ∀ o ∈ p.filteredOrders, o.product = sel ∧ sd ≤ o.date ∧ o.date ≤ ed := by
  obtain ⟨rfl, -⟩ := update_dashboard_populated h
  rw [compute_populated_filteredOrders]
  constructor
  · exact List.Pairwise.sublist (List.filter_sublist _) hs
  · intro o ho
    obtain ⟨-, hpred⟩ := List.mem_filter.mp ho
    simp only [Bool.and_eq_true, beq_iff_eq, decide_eq_true_eq] at hpred
    tauto

/-- C4 witness: the sample scenario over its full range. -/
theorem C4_witness : ∃ p, update_dashboard sampleTables "Arabica" 0 31 = .populated p ∧
    (List.Sorted byDateO p.filteredOrders ∧
      ∀ o ∈ p.filteredOrders, o.product = "Arabica" ∧ 0 ≤ o.date ∧ o.date ≤ 31) :=
  ⟨compute_populated sampleTables "Arabica" 0 31, rfl,
    C4_filtered_orders_sorted sampleTables (by decide) "Arabica" 0 31 _ rfl⟩

/-- C5: in every Populated result, latestDiff is `pct_growth` of the last
market price of the date-filtered market slice and the last bag price of the
filtered orders when the slice is non-empty, and absent when it is empty. -/
theorem C5_latest_diff (t : Tables) (sel : String) (sd ed : Int) (p : Populated)
    (h : update_dashboard t sel sd ed = .populated p) :
    (p.filteredMarket ≠ [] →
      p.latestDiff = pct_growth (p.filteredMarket.getLast?.map (·.price))
        (p.filteredOrders.getLast?.map (·.bagPrice))) ∧
    (p.filteredMarket = [] → p.latestDiff = none) := by
  obtain ⟨rfl, -⟩ := update_dashboard_populated h
  rw [compute_populated_filteredMarket, compute_populated_latestDiff,
    compute_populated_filteredOrders]
  by_cases he : (dff_market0 t sd ed).isEmpty
  · have h1 : dff_market t sd ed = [] := by
      unfold dff_market
      rw [if_pos he]
      exact List.isEmpty_iff.mp he
    have h2 : latest_market t sd ed = none := by
      unfold latest_market
      rw [if_pos he]
    refine ⟨fun hne => absurd h1 hne, fun _ => ?_⟩
    rw [h2]
    rfl
  · have h0 : dff_market0 t sd ed ≠ [] := fun hh => he (by simp [hh])
    have h1 : dff_market t sd ed = (dff_market0 t sd ed).insertionSort byDateM := by
      unfold dff_market
      rw [if_neg he]
    have hne : dff_market t sd ed ≠ [] := by
      rw [h1]
      intro hh
      exact h0 ((insertionSort_eq_nil_iff byDateM _).mp hh)
    have h2 : latest_market t sd ed = (dff_market t sd ed).getLast?.map (·.price) := by
      unfold latest_market
      rw [if_neg he]
    have h3 : (latest_market t sd ed).isSome = true := by
      rw [h2, Option.isSome_map']
      simpa using hne
    refine ⟨fun _ => ?_, fun hh => absurd hh hne⟩
    rw [if_pos h3, h2]

/-- C5 witness: the sample scenario over its full range. -/
theorem C5_witness : ∃ p, update_dashboard sampleTables "Arabica" 0 31 = .populated p ∧
    p.latestDiff = pct_growth (p.filteredMarket.getLast?.map (·.price))
      (p.filteredOrders.getLast?.map (·.bagPrice)) :=
  ⟨compute_populated sampleTables "Arabica" 0 31, rfl,
    (C5_latest_diff sampleTables "Arabica" 0 31 _ rfl).1 (by decide)⟩

/-- C6 (counterexample): with a first filtered market price of 0 the filtered
market slice is non-empty yet marketGrowth is absent, so "absent exactly when
the filtered sequence is empty" fails. -/
theorem C6_counterexample : ∃ p, update_dashboard zeroTables "A" 0 1 = .populated p ∧
    p.filteredMarket ≠ [] ∧ p.marketGrowth = none :=
  ⟨compute_populated zeroTables "A" 0 1, rfl, by decide, by decide⟩

/-- C6 (amended): marketGrowth equals `pct_growth` of the first and last
market price of the date-filtered market slice when the slice is non-empty
(so it is still absent when that first price is 0), and is absent when the
slice is empty; in the latter case latestDiff is also absent while
priceChange is still `pct_growth` of the orders' first and last bag price. -/
theorem C6_market_growth (t : Tables) (sel : String) (sd ed : Int) (p : Populated)
    (h : update_dashboard t sel sd ed = .populated p) :
    (p.filteredMarket ≠ [] →
      p.marketGrowth = pct_growth (p.filteredMarket.head?.map (·.price))
        (p.filteredMarket.getLast?.map (·.price))) ∧
    (p.filteredMarket = [] →
      p.marketGrowth = none ∧ p.latestDiff = none ∧
        p.priceChange = pct_growth (p.filteredOrders.head?.map (·.bagPrice))
          (p.filteredOrders.getLast?.map (·.bagPrice))) := by
  obtain ⟨rfl, -⟩ := update_dashboard_populated h
  rw [compute_populated_filteredMarket, compute_populated_marketGrowth,
    compute_populated_latestDiff, compute_populated_priceChange,
    compute_populated_filteredOrders]
  by_cases he : (dff_market0 t sd ed).isEmpty
  · have h1 : dff_market t sd ed = [] := by
      unfold dff_market
      rw [if_pos he]
      exact List.isEmpty_iff.mp he
    have h2 : latest_market t sd ed = none := by
      unfold latest_market
      rw [if_pos he]
    have h2e : earliest_market t sd ed = none := by
      unfold earliest_market
      rw [if_pos he]
    refine ⟨fun hne => absurd h1 hne, fun _ => ⟨?_, ?_, rfl⟩⟩
    · rw [h2, h2e]
      rfl
    · rw [h2]
      rfl
  · have h1 : dff_market t sd ed = (dff_market0 t sd ed).insertionSort byDateM := by
      unfold dff_market
      rw [if_neg he]
    have hne : dff_market t sd ed ≠ [] := by
      rw [h1]
      intro hh
      exact (fun hh0 => he (by simp [hh0])) ((insertionSort_eq_nil_iff byDateM _).mp hh)
    have h2 : latest_market t sd ed = (dff_market t sd ed).getLast?.map (·.price) := by
      unfold latest_market
      rw [if_neg he]
    have h2e : earliest_market t sd ed = (dff_market t sd ed).head?.map (·.price) := by
      unfold earliest_market
      rw [if_neg he]
    refine ⟨fun _ => ?_, fun hh => absurd hh hne⟩
    rw [h2, h2e]

/-- C6 witness: the sample scenario over its full range has a non-empty
filtered market slice. -/
theorem C6_witness : ∃ p, update_dashboard sampleTables "Arabica" 0 31 = .populated p ∧
    p.marketGrowth = pct_growth (p.filteredMarket.head?.map (·.price))
      (p.filteredMarket.getLast?.map (·.price)) :=
  ⟨compute_populated sampleTables "Arabica" 0 31, rfl,
    (C6_market_growth sampleTables "Arabica" 0 31 _ rfl).1 (by decide)⟩

/-- C7: the dashboard update is a pure function of its inputs and the
startup tables: with the tables threaded as state, the state comes back
unchanged and a second call with identical arguments on the returned state
yields an identical result. -/
theorem C7_pure (t : Tables) (sel : String) (sd ed : Int) :
    (update_dashboard_app t sel sd ed).2 = t ∧
    (update_dashboard_app ((update_dashboard_app t sel sd ed).2) sel sd ed).1 =
      (update_dashboard_app t sel sd ed).1 :=
  ⟨rfl, rfl⟩

/-- C8: for a non-empty order table, a positive activation count resets the
date inputs to the rendered min and max order dates (which are genuine
attained bounds of the order dates), and a zero count yields the no-op
signal. -/
theorem C8_reset (orders : List Order) (n : Nat) (hne : orders ≠ []) :
    (0 < n → reset_date_range orders n =
        .setRange (dateStr (dates_min orders)) (dateStr (dates_max orders)) ∧
      (∃ o ∈ orders, dates_min orders = o.date) ∧
      (∃ o ∈ orders, dates_max orders = o.date) ∧
      ∀ o ∈ orders, dates_min orders ≤ o.date ∧ o.date ≤ dates_max orders) ∧
    (n = 0 → reset_date_range orders n = .noUpdate) := by
  constructor
  · intro hn
    have hn' : n ≠ 0 := Nat.pos_iff_ne_zero.mp hn
    refine ⟨by simp [reset_date_range, hn'], (dates_min_spec hne).1,
      (dates_max_spec hne).1, ?_⟩
    intro o ho
    exact ⟨(dates_min_spec hne).2 o ho, (dates_max_spec hne).2 o ho⟩
  · rintro rfl
    rfl

/-- C8 witness: the sample orders with one and zero activations. -/
theorem C8_witness :
    reset_date_range sampleOrders 1 =
      .setRange (dateStr (dates_min sampleOrders)) (dateStr (dates_max sampleOrders)) ∧
    reset_date_range sampleOrders 0 = .noUpdate :=
  ⟨((C8_reset sampleOrders 1 (by simp [sampleOrders])).1 (by norm_num)).1,
    (C8_reset sampleOrders 0 (by simp [sampleOrders])).2 rfl⟩

/-- C9: every Populated result carries exactly three KPI cards in the fixed
order Market Growth, Price Change, Latest Diff, whose bodies are the
formatted KPI values; a present value renders as sign, integer part, a dot,
exactly two decimal digits and a trailing `%`, and an absent value renders
as the literal `N/A`. -/
theorem C9_kpi_cards (t : Tables) (sel : String) (sd ed : Int) (p : Populated)
    (h : update_dashboard t sel sd ed = .populated p) :
    p.kpiCards.map Prod.fst = ["Market Growth", "Price Change", "Latest Diff"] ∧
    p.kpiCards.map Prod.snd =
      [format_pct p.marketGrowth, format_pct p.priceChange,
        format_pct p.latestDiff ++ " vs. Market"] ∧
    (∀ q : ℚ, ∃ (sgn : String) (k m : Nat), (sgn = "" ∨ sgn = "-") ∧ m < 100 ∧
      format_pct (some q) = sgn ++ Nat.repr k ++ "." ++ twoDigits m ++ "%" ∧
      (twoDigits m).length = 2) ∧
    format_pct none = "N/A" := by
  obtain ⟨rfl, -⟩ := update_dashboard_populated h
  refine ⟨rfl, rfl, ?_, rfl⟩
  intro q
  refine ⟨if q < 0 then "-" else "", (roundHalfEven (q * 100)).natAbs / 100,
    (roundHalfEven (q * 100)).natAbs % 100, ?_, Nat.mod_lt _ (by norm_num), rfl, rfl⟩
  split
  · exact Or.inr rfl
  · exact Or.inl rfl

/-- C9 witness: the sample scenario's card titles in order. -/
theorem C9_witness : ∃ p, update_dashboard sampleTables "Arabica" 0 31 = .populated p ∧
    p.kpiCards.map Prod.fst = ["Market Growth", "Price Change", "Latest Diff"] :=
  ⟨compute_populated sampleTables "Arabica" 0 31, rfl,
    (C9_kpi_cards sampleTables "Arabica" 0 31 _ rfl).1⟩

/-- C10: the candle date filter tests only each candle's own date, and every
filtered candle keeps the Open fixed at startup: its Open is the market
price of the predecessor record, with no condition tying that predecessor's
date to the start of the range. -/
theorem C10_candle_filter (t : Tables)
    (hc : t.df_market_candle = market_candle t.df_market)
    (sel : String) (sd ed : Int) (p : Populated)
    (h : update_dashboard t sel sd ed = .populated p) :
    (∀ c : Candle, c ∈ p.filteredCandles ↔
      c ∈ market_candle t.df_market ∧ sd ≤ c.date ∧ c.date ≤ ed) ∧
    ∀ c ∈ p.filteredCandles, ∃ (i : Nat) (prev cur : MarketRec),
      t.df_market[i]? = some prev ∧ t.df_market[i + 1]? = some cur ∧
      c.date = cur.date ∧ c.«open» = prev.price ∧ c.close = cur.price := by
  obtain ⟨rfl, -⟩ := update_dashboard_populated h
  rw [compute_populated_filteredCandles]
  have hmem : ∀ c : Candle, c ∈ filtered_candles t sd ed ↔
      c ∈ market_candle t.df_market ∧ sd ≤ c.date ∧ c.date ≤ ed := by
    intro c
    unfold filtered_candles
    rw [hc, List.mem_filter]
    simp only [Bool.and_eq_true, decide_eq_true_eq, and_assoc]
  refine ⟨hmem, ?_⟩
  intro c hcm
  obtain ⟨hm, -, -⟩ := (hmem c).mp hcm
  obtain ⟨i, prev, cur, h1, h2, rfl⟩ := market_candle_mem hm
  exact ⟨i, prev, cur, h1, h2, rfl, rfl, rfl⟩

/-- C10 witness: with the range 31..31 the only retained candle keeps
Open = 4, the price of its predecessor record dated 0, strictly before the
start of the range. -/
theorem C10_witness : ∃ p, update_dashboard sampleTables "Arabica" 31 31 = .populated p ∧
    p.filteredCandles.map (fun c => (c.date, c.«open»)) = [((31 : Int), (4 : ℚ))] ∧
    (∀ c ∈ p.filteredCandles, ∃ (i : Nat) (prev cur : MarketRec),
      sampleTables.df_market[i]? = some prev ∧ sampleTables.df_market[i + 1]? = some cur ∧
      c.date = cur.date ∧ c.«open» = prev.price ∧ c.close = cur.price) ∧
    ∀ r ∈ sampleTables.df_market, r.price = 4 → r.date < 31 :=
  ⟨compute_populated sampleTables "Arabica" 31 31, rfl, by decide,
    (C10_candle_filter sampleTables rfl "Arabica" 31 31 _ rfl).2, by decide⟩

end MavenMarket
